import Mathlib

/-!
Verification of the clicktelligence core (github.com/orian/clicktelligence).

This file gives a shallow embedding, in Lean 4, of the parts of the Go
source that the specification talks about:

* the tag system (`ParseTag`, `FormatTag`, `AddTag`, `RemoveTag`,
  `GetVersionTags`, `ToggleStarred`) from `tags.go` and `models`;
* the explain query builder (`buildSettings`, `BuildExplainQuery`) from the
  `models` package;
* the result reuse cache (`checkCachedVersion`) and the auto-branch policy
  (`checkAutoBranch`, `filterExplainConfigs`) from `explain_service.go`;
* the version graph persistence operations (`CreateBranch`, `GetBranch`,
  `GetVersion`, `SaveVersion`) from `storage.go`, with the DuckDB tables
  modelled as Lean lists and the one transaction modelled explicitly.

Stateful Go code becomes explicit state passing over a `DB` record; the
`error` return values become `Except String` or an `Option String` error
component; `uuid.New()` and `time.Now()` become a fresh-id counter and a
clock field carried in the state; database write failures are injected
through a `Faults` record so that the error-handling paths are reachable.
-/

/-! ## Tag system (`tags.go`, `models/tags.go`) -/

/-- Character class of Go's `unicode.IsSpace` restricted to Latin-1:
tab (9), newline (10), vertical tab (11), form feed (12), carriage
return (13), space (32), next line (133) and no-break space (160).
The remaining Unicode white-space code points behave identically for
every property proved here (they are all distinct from the `=` sign). -/
def goIsSpace (c : Char) : Bool :=
  c.toNat = 9 || c.toNat = 10 || c.toNat = 11 || c.toNat = 12 ||
  c.toNat = 13 || c.toNat = 32 || c.toNat = 133 || c.toNat = 160

/-- Go's `strings.TrimSpace` on a character list: drop white space from
both ends (left first, then right). -/
def trimChars (cs : List Char) : List Char :=
  List.rdropWhile goIsSpace (cs.dropWhile goIsSpace)

/-- `ParseTag` from `tags.go`: split on the first `=` (Go
`strings.SplitN(tag, "=", 2)`), trim surrounding white space from both
parts; when no `=` is present the value is empty. -/
def ParseTag (s : String) : String × String :=
  let key := trimChars (s.data.takeWhile (fun c => c ≠ '='))
  match s.data.dropWhile (fun c => c ≠ '=') with
  | [] => (String.mk key, "")
  | _ :: rest => (String.mk key, String.mk (trimChars rest))

/-- `FormatTag` from `tags.go`: the key alone when the value is empty,
otherwise `key=value`. -/
def FormatTag (key value : String) : String :=
  if value = "" then key else key ++ "=" ++ value

/-- Composition `FormatTag ∘ ParseTag`: the normalized rendering of a raw
tag string. -/
def parseThenFormat (s : String) : String :=
  FormatTag (ParseTag s).1 (ParseTag s).2

/-! ### Round-trip lemmas for the tag wire format -/

theorem dropWhile_eq_cons_head_false {α : Type} {p : α → Bool} {l t : List α} {a : α}
    (h : l.dropWhile p = a :: t) : p a = false := by
  induction l with
  | nil => simp at h
  | cons b l ih =>
    by_cases hb : p b
    · exact ih (by simpa [List.dropWhile_cons, hb] using h)
    · rw [List.dropWhile_cons_of_neg hb] at h
      cases h
      exact Bool.eq_false_iff.mpr hb

theorem rdropWhile_append_eq (p : Char → Bool) (l : List Char) :
    List.rdropWhile p l ++ (l.reverse.takeWhile p).reverse = l := by
  rw [List.rdropWhile, ← List.reverse_append, List.takeWhile_append_dropWhile,
    List.reverse_reverse]

theorem dropWhile_rdropWhile_self {p : Char → Bool} {l : List Char}
    (hl : l.dropWhile p = l) :
    (List.rdropWhile p l).dropWhile p = List.rdropWhile p l := by
  have hsplit := rdropWhile_append_eq p l
  cases hr : List.rdropWhile p l with
  | nil => rfl
  | cons c t =>
    rw [hr] at hsplit
    have hlc : l = c :: (t ++ (l.reverse.takeWhile p).reverse) := hsplit.symm
    have hpc : p c = false := dropWhile_eq_cons_head_false (hl.trans hlc)
    rw [List.dropWhile_cons_of_neg (by simp [hpc])]

theorem trimChars_idem (cs : List Char) : trimChars (trimChars cs) = trimChars cs := by
  unfold trimChars
  rw [dropWhile_rdropWhile_self (List.dropWhile_idempotent goIsSpace cs),
    List.rdropWhile_idempotent]

theorem mem_of_mem_trimChars {c : Char} {cs : List Char} (h : c ∈ trimChars cs) :
    c ∈ cs := by
  unfold trimChars at h
  have h1 : c ∈ cs.dropWhile goIsSpace := by
    rw [← rdropWhile_append_eq goIsSpace (cs.dropWhile goIsSpace)]
    exact List.mem_append.2 (Or.inl h)
  rw [← List.takeWhile_append_dropWhile goIsSpace cs]
  exact List.mem_append.2 (Or.inr h1)

/-- The characters produced for the key part of `ParseTag`. -/
def parseKeyChars (cs : List Char) : List Char :=
  trimChars (cs.takeWhile (fun c => c ≠ '='))

/-- The characters produced for the value part of `ParseTag`. -/
def parseValChars (cs : List Char) : List Char :=
  match cs.dropWhile (fun c => c ≠ '=') with
  | [] => []
  | _ :: rest => trimChars rest

theorem ParseTag_eq (s : String) :
    ParseTag s = (String.mk (parseKeyChars s.data), String.mk (parseValChars s.data)) := by
  unfold ParseTag parseKeyChars parseValChars
  cases s.data.dropWhile (fun c => c ≠ '=') with
  | nil => rfl
  | cons c rest => rfl

theorem parseKeyChars_no_eq (cs : List Char) : ∀ c ∈ parseKeyChars cs, c ≠ '=' := by
  intro c hc
  have h1 : c ∈ cs.takeWhile (fun c => c ≠ '=') := mem_of_mem_trimChars hc
  have h2 := List.mem_takeWhile_imp h1
  simpa using h2

theorem parseKeyChars_trimmed (cs : List Char) :
    trimChars (parseKeyChars cs) = parseKeyChars cs := trimChars_idem _

theorem parseValChars_trimmed (cs : List Char) :
    trimChars (parseValChars cs) = parseValChars cs := by
  unfold parseValChars
  cases cs.dropWhile (fun c => c ≠ '=') with
  | nil => rfl
  | cons c rest => exact trimChars_idem rest

theorem takeWhile_all_eq_self {p : Char → Bool} {k : List Char}
    (h : ∀ c ∈ k, p c) : k.takeWhile p = k := by
  induction k with
  | nil => rfl
  | cons a l ih =>
    rw [List.takeWhile_cons_of_pos (h a (List.mem_cons_self a l)),
      ih (fun c hc => h c (List.mem_cons_of_mem a hc))]

theorem dropWhile_all_eq_nil {p : Char → Bool} {k : List Char}
    (h : ∀ c ∈ k, p c) : k.dropWhile p = [] := by
  induction k with
  | nil => rfl
  | cons a l ih =>
    rw [List.dropWhile_cons_of_pos (h a (List.mem_cons_self a l))]
    exact ih (fun c hc => h c (List.mem_cons_of_mem a hc))

theorem parse_format_chars (k v : List Char)
    (hk : ∀ c ∈ k, c ≠ '=') (hkt : trimChars k = k) (hvt : trimChars v = v) :
    ParseTag (FormatTag (String.mk k) (String.mk v)) = (String.mk k, String.mk v) := by
  have hkb : ∀ c ∈ k, (fun c => decide (c ≠ '=')) c = true := by
    intro c hc
    simpa using hk c hc
  cases v with
  | nil =>
    have hfmt : FormatTag (String.mk k) (String.mk []) = String.mk k := by
      unfold FormatTag
      rw [if_pos (by simp [String.ext_iff])]
    rw [hfmt, ParseTag_eq]
    unfold parseKeyChars parseValChars
    rw [show (String.mk k).data = k from rfl]
    rw [takeWhile_all_eq_self hkb, dropWhile_all_eq_nil hkb, hkt]
  | cons c0 v' =>
    have hfmt : (FormatTag (String.mk k) (String.mk (c0 :: v'))).data
        = k ++ ('=' :: (c0 :: v')) := by
      unfold FormatTag
      rw [if_neg (by simp [String.ext_iff])]
      simp [String.data_append]
    rw [ParseTag_eq, hfmt]
    unfold parseKeyChars parseValChars
    rw [List.takeWhile_append_of_pos hkb, List.dropWhile_append_of_pos hkb,
      List.takeWhile_cons_of_neg (by simp), List.dropWhile_cons_of_neg (by simp)]
    simp [hkt, hvt]

theorem ParseTag_parseThenFormat (s : String) :
    ParseTag (parseThenFormat s) = ParseTag s := by
  unfold parseThenFormat
  rw [ParseTag_eq s]
  exact parse_format_chars _ _ (parseKeyChars_no_eq s.data)
    (parseKeyChars_trimmed s.data) (parseValChars_trimmed s.data)

/-- C8: for every string s, formatting is idempotent after the first
parse/format round trip:
`FormatTag (ParseTag (FormatTag (ParseTag s))) = FormatTag (ParseTag s)`,
stated through `parseThenFormat`, the literal composition of `FormatTag`
with `ParseTag`. -/
theorem formatTag_parseTag_idempotent (s : String) :
    parseThenFormat (parseThenFormat s) = parseThenFormat s := by
  have h := ParseTag_parseThenFormat s
  show FormatTag (ParseTag (parseThenFormat s)).1 (ParseTag (parseThenFormat s)).2
      = parseThenFormat s
  rw [h]
  rfl

/-! ## Explain query builder (`models` package, `explain.go`)

The kind-header and per-kind settings logic below follows the source in
the repository's `models` package (the 3-argument builder); the current
callers (`main.go`, `explain_executor.go`) and the builder's test invoke a
4-argument variant that additionally takes a time budget in milliseconds,
whose defining file is not in the snapshot — that one clause is modelled
from the spec (see `formatExecutionTime` and the last component of
`explainSettingsClause`). -/

/-- Go's `strings.Join`: concatenate the parts with the separator between
consecutive parts. -/
def joinParts (sep : String) : List String → String
  | [] => ""
  | [x] => x
  | x :: y :: xs => x ++ sep ++ joinParts sep (y :: xs)

/-- `ExplainType` is a string type in Go. -/
abbrev ExplainType := String

def ExplainAST : ExplainType := "AST"

def ExplainSyntax : ExplainType := "SYNTAX"

def ExplainQueryTree : ExplainType := "QUERY TREE"

def ExplainPlan : ExplainType := "PLAN"

def ExplainPipeline : ExplainType := "PIPELINE"

def ExplainEstimate : ExplainType := "ESTIMATE"

def ExplainTableOverride : ExplainType := "TABLE OVERRIDE"

/-- `ExplainSettings`: optional integer-valued settings; `none` models a
nil pointer (setting unset). -/
structure ExplainSettings where
  header : Option Int := none
  description : Option Int := none
  indexes : Option Int := none
  projections : Option Int := none
  actions : Option Int := none
  jsonFormat : Option Int := none
  graph : Option Int := none
  compact : Option Int := none
  oneLine : Option Int := none
  runQueryTreePasses : Option Int := none
  queryTreePasses : Option Int := none
  runPasses : Option Int := none
  dumpPasses : Option Int := none
  passes : Option Int := none
  dumpTree : Option Int := none
  dumpAST : Option Int := none
deriving Repr, DecidableEq

/-- `ExplainConfig`: one EXPLAIN configuration. -/
structure ExplainConfig where
  type : ExplainType := ""
  settings : ExplainSettings := {}
  enabled : Bool := false
deriving Repr, DecidableEq

/-- One conditional settings entry of `buildSettings`: emitted when the
setting is set and applies to the current kind. -/
def settingItem (v : Option Int) (applies : Bool) (name : String) : List String :=
  match v with
  | some n => if applies then [name ++ "=" ++ toString n] else []
  | none => []

/-- `buildSettings` from the `models` package: the kind-scoped settings
clause, in the fixed source order, joined with a comma and space. -/
def buildSettings (c : ExplainConfig) : String :=
  let s := c.settings
  let items :=
    settingItem s.header true "header"
    ++ settingItem s.description (c.type == ExplainPlan) "description"
    ++ settingItem s.indexes (c.type == ExplainPlan) "indexes"
    ++ settingItem s.projections (c.type == ExplainPlan) "projections"
    ++ settingItem s.actions (c.type == ExplainPlan) "actions"
    ++ settingItem s.jsonFormat (c.type == ExplainPlan) "json"
    ++ settingItem s.graph (c.type == ExplainPipeline) "graph"
    ++ settingItem s.compact (c.type == ExplainPipeline) "compact"
    ++ settingItem s.oneLine (c.type == ExplainSyntax) "oneline"
    ++ settingItem s.runQueryTreePasses (c.type == ExplainSyntax) "run_query_tree_passes"
    ++ settingItem s.queryTreePasses (c.type == ExplainSyntax) "query_tree_passes"
    ++ settingItem s.runPasses (c.type == ExplainQueryTree) "run_passes"
    ++ settingItem s.dumpPasses (c.type == ExplainQueryTree) "dump_passes"
    ++ settingItem s.passes (c.type == ExplainQueryTree) "passes"
    ++ settingItem s.dumpTree (c.type == ExplainQueryTree) "dump_tree"
    ++ settingItem s.dumpAST (c.type == ExplainQueryTree) "dump_ast"
  if items.length = 0 then "" else joinParts ", " items

/-- The single-quote character, used around the log comment. -/
def singleQuote : String := String.singleton (Char.ofNat 39)

/-- Modelled from the spec: the missing 4-argument builder renders the
time budget in seconds with exactly three decimal digits (1500 ms becomes
1.500); pinned by the expected strings of `TestBuildExplainQuery`. -/
def formatExecutionTime (ms : Int) : String :=
  let n := ms.toNat
  let frac := n % 1000
  let fracStr :=
    if frac < 10 then "00" ++ toString frac
    else if frac < 100 then "0" ++ toString frac
    else toString frac
  toString (n / 1000) ++ "." ++ fracStr

/-- The EXPLAIN keyword with the kind appended when it is non-empty. -/
def explainHead (c : ExplainConfig) : String :=
  if c.type = "" then "EXPLAIN" else "EXPLAIN " ++ c.type

/-- The trailing request-level SETTINGS entries, in source order: the
log comment (when non-empty), the analyzer override (when forced and the
kind is QUERY TREE), then the time budget (when strictly positive; this
last entry is modelled from the spec, see `formatExecutionTime`). -/
def explainSettingsClause (c : ExplainConfig) (logComment : String)
    (forceAnalyzer : Bool) (maxExecutionTimeMs : Int) : List String :=
  (if logComment ≠ "" then
    ["log_comment=" ++ singleQuote ++ logComment ++ singleQuote] else [])
  ++ (if forceAnalyzer && (c.type == ExplainQueryTree) then
    ["enable_analyzer=1"] else [])
  ++ (if 0 < maxExecutionTimeMs then
    ["max_execution_time=" ++ formatExecutionTime maxExecutionTimeMs] else [])

/-- `BuildExplainQuery`: the full diagnostic request text — the EXPLAIN
head, the kind-scoped settings, the raw query verbatim, and the trailing
SETTINGS clause when non-empty, joined with single spaces. -/
def BuildExplainQuery (c : ExplainConfig) (query logComment : String)
    (forceAnalyzer : Bool) (maxExecutionTimeMs : Int) : String :=
  joinParts " " (explainHead c ::
    (((if buildSettings c ≠ "" then [buildSettings c] else []) ++ [query]) ++
     (match explainSettingsClause c logComment forceAnalyzer maxExecutionTimeMs with
      | [] => []
      | cl => ["SETTINGS", joinParts ", " cl])))

theorem joinParts_cons_of_ne_nil (sep x : String) {l : List String} (h : l ≠ []) :
    joinParts sep (x :: l) = x ++ sep ++ joinParts sep l := by
  cases l with
  | nil => exact absurd rfl h
  | cons y ys => rfl

theorem joinParts_last (sep : String) (l : List String) (x : String) :
    ∃ pre, joinParts sep (l ++ [x]) = pre ++ x := by
  induction l with
  | nil => exact ⟨"", by simp [joinParts, String.empty_append]⟩
  | cons a l ih =>
    obtain ⟨pre, hpre⟩ := ih
    refine ⟨a ++ sep ++ pre, ?_⟩
    rw [List.cons_append, joinParts_cons_of_ne_nil sep a (by simp), hpre]
    simp [String.append_assoc]

theorem tail_parts_ne_nil (A B : List String) (q : String) : (A ++ [q]) ++ B ≠ [] := by
  simp

theorem buildExplainQuery_head_general (c : ExplainConfig) (q lc : String)
    (fa : Bool) (ms : Int) :
    ∃ rest, BuildExplainQuery c q lc fa ms
      = (if c.type = "" then "EXPLAIN" else "EXPLAIN " ++ c.type) ++ " " ++ rest := by
  have h := joinParts_cons_of_ne_nil " " (explainHead c) (tail_parts_ne_nil
    (if buildSettings c ≠ "" then [buildSettings c] else [])
    (match explainSettingsClause c lc fa ms with
     | [] => []
     | cl => ["SETTINGS", joinParts ", " cl]) q)
  exact ⟨_, h⟩

/-- C1: for the PLAN kind with settings indexes=1 and description=1, raw
query SELECT 1, empty tracing tag, forcing flag false and no time budget,
the builder returns exactly
EXPLAIN PLAN description=1, indexes=1 SELECT 1; and in general the built
text starts with EXPLAIN alone exactly when the kind is the empty
sentinel, and with EXPLAIN followed by the kind for every non-empty kind,
PLAN included. -/
theorem buildExplainQuery_kind_header :
    BuildExplainQuery
      { type := ExplainPlan,
        settings := { indexes := some 1, description := some 1 },
        enabled := true }
      "SELECT 1" "" false 0
      = "EXPLAIN PLAN description=1, indexes=1 SELECT 1"
    ∧ ∀ (c : ExplainConfig) (q lc : String) (fa : Bool) (ms : Int),
        ∃ rest, BuildExplainQuery c q lc fa ms
          = (if c.type = "" then "EXPLAIN" else "EXPLAIN " ++ c.type) ++ " " ++ rest :=
  ⟨by decide, fun c q lc fa ms => buildExplainQuery_head_general c q lc fa ms⟩

theorem explainSettingsClause_pos (c : ExplainConfig) (lc : String) (fa : Bool)
    {ms : Int} (hms : 0 < ms) :
    explainSettingsClause c lc fa ms =
      ((if lc ≠ "" then ["log_comment=" ++ singleQuote ++ lc ++ singleQuote] else [])
        ++ (if fa && (c.type == ExplainQueryTree) then ["enable_analyzer=1"] else []))
      ++ ["max_execution_time=" ++ formatExecutionTime ms] := by
  unfold explainSettingsClause
  rw [if_pos hms]

theorem buildExplainQuery_ends_with_clause (c : ExplainConfig) (q lc : String)
    (fa : Bool) (ms : Int) {e0 : String} {es : List String}
    (h : explainSettingsClause c lc fa ms = e0 :: es) :
    BuildExplainQuery c q lc fa ms =
      joinParts " " ((((explainHead c ::
        (if buildSettings c ≠ "" then [buildSettings c] else [])) ++ [q])
        ++ ["SETTINGS"]) ++ [joinParts ", " (e0 :: es)]) := by
  unfold BuildExplainQuery
  rw [h]
  simp [List.append_assoc]

/-- C2: whenever the time budget is strictly positive, the trailing
SETTINGS clause carries a max_execution_time entry rendering the budget
in seconds with exactly three decimal digits and the whole built text
ends with that entry; whenever the budget is zero or negative the clause
carries no time-budget entry (every entry is the tracing entry or the
analyzer entry); and 1500 ms renders as 1.500. -/
theorem buildExplainQuery_time_budget (c : ExplainConfig) (q lc : String)
    (fa : Bool) (ms : Int) :
    (0 < ms →
      ("max_execution_time=" ++ formatExecutionTime ms)
          ∈ explainSettingsClause c lc fa ms ∧
      ∃ pre, BuildExplainQuery c q lc fa ms
          = pre ++ ("max_execution_time=" ++ formatExecutionTime ms)) ∧
    (ms ≤ 0 → ∀ e ∈ explainSettingsClause c lc fa ms,
      e = "log_comment=" ++ singleQuote ++ lc ++ singleQuote
        ∨ e = "enable_analyzer=1") ∧
    formatExecutionTime 1500 = "1.500" := by
  refine ⟨fun hms => ⟨?_, ?_⟩, fun hms e he => ?_, by decide⟩
  · rw [explainSettingsClause_pos c lc fa hms]
    simp
  · have hcl := explainSettingsClause_pos c lc fa hms
    obtain ⟨pre2, hpre2⟩ := joinParts_last ", "
      ((if lc ≠ "" then ["log_comment=" ++ singleQuote ++ lc ++ singleQuote] else [])
        ++ (if fa && (c.type == ExplainQueryTree) then ["enable_analyzer=1"] else []))
      ("max_execution_time=" ++ formatExecutionTime ms)
    cases hc : explainSettingsClause c lc fa ms with
    | nil =>
      rw [hcl] at hc
      simp at hc
    | cons e0 es =>
      rw [buildExplainQuery_ends_with_clause c q lc fa ms hc]
      obtain ⟨pre1, hpre1⟩ := joinParts_last " "
        (((explainHead c ::
          (if buildSettings c ≠ "" then [buildSettings c] else [])) ++ [q])
          ++ ["SETTINGS"]) (joinParts ", " (e0 :: es))
      rw [hpre1, ← hc, hcl, hpre2]
      exact ⟨pre1 ++ pre2, by simp [String.append_assoc]⟩
  · unfold explainSettingsClause at he
    rw [if_neg (by omega : ¬ 0 < ms)] at he
    simp only [List.append_nil, List.mem_append] at he
    rcases he with he | he
    · left
      by_cases hlc : lc ≠ ""
      · rw [if_pos hlc] at he
        simpa using he
      · rw [if_neg hlc] at he
        simp at he
    · right
      by_cases hb : (fa && (c.type == ExplainQueryTree)) = true
      · rw [if_pos hb] at he
        simpa using he
      · rw [if_neg hb] at he
        simp at he

/-- C2 witness at a budget of 1500 ms (entry present and text ends with
it) and at a budget of 0 (no time-budget entry). -/
theorem buildExplainQuery_time_budget_witness :
    ((0 : Int) < 1500 ∧
      ("max_execution_time=" ++ formatExecutionTime 1500)
        ∈ explainSettingsClause { type := ExplainPlan } "" false 1500 ∧
      ∃ pre, BuildExplainQuery { type := ExplainPlan } "SELECT 1" "" false 1500
        = pre ++ ("max_execution_time=" ++ formatExecutionTime 1500)) ∧
    ((0 : Int) ≤ 0 ∧ ∀ e ∈ explainSettingsClause { type := ExplainPlan } "" false 0,
      e = "log_comment=" ++ singleQuote ++ "" ++ singleQuote
        ∨ e = "enable_analyzer=1") :=
  ⟨⟨by decide,
    (buildExplainQuery_time_budget { type := ExplainPlan } "SELECT 1" "" false 1500).1
      (by decide)⟩,
   ⟨by decide,
    (buildExplainQuery_time_budget { type := ExplainPlan } "SELECT 1" "" false 0).2.1
      (by decide)⟩⟩

/-! ## Data model (`models/models.go`) and storage state (`storage.go`)

The DuckDB tables `branches`, `query_versions` and `version_tags` are
modelled as lists in insertion order; `uuid.New()` is modelled by a
fresh-id counter and `time.Now()` by a clock field. Injected `Faults`
stand for write errors of the persistence engine, which the Go code
receives as non-nil `error` values from `database/sql`. -/

/-- `ExplainResult` (the `Output`/`Estimate` payload is irrelevant to the
claims; the `Error` string drives the cache decision). -/
structure ExplainResult where
  type : ExplainType := ""
  output : String := ""
  error : String := ""
deriving Repr, DecidableEq

/-- `models.Branch`. -/
structure Branch where
  id : String := ""
  name : String := ""
  parentBranchID : String := ""
  branchFromVersionID : String := ""
  currentVersionID : String := ""
  createdAt : Nat := 0
deriving Repr, DecidableEq

/-- `models.QueryVersion` (the execution statistics bag is carried opaquely
as key/value strings; no claim inspects it). -/
structure QueryVersion where
  id : String := ""
  branchID : String := ""
  query : String := ""
  queryHash : String := ""
  explainResults : List ExplainResult := []
  executionStats : List (String × String) := []
  timestamp : Nat := 0
  parentVersionID : String := ""
deriving Repr, DecidableEq

/-- `models.VersionTag`. -/
structure VersionTag where
  id : String := ""
  versionID : String := ""
  tagKey : String := ""
  tagValue : String := ""
  createdAt : Nat := 0
deriving Repr, DecidableEq

/-- The visible persistent state plus the id/clock sources. -/
structure DB where
  branches : List Branch := []
  versions : List QueryVersion := []
  tags : List VersionTag := []
  nextId : Nat := 0
  now : Nat := 0
deriving Repr, DecidableEq

/-- Injected persistence-write failures (non-nil errors returned by the
database driver at the corresponding statement). -/
structure Faults where
  failCreateBranch : Bool := false
  failInsertVersion : Bool := false
  failUpdateHead : Bool := false
  failCommit : Bool := false
deriving Repr, DecidableEq

/-- `uuid.New().String()` modelled as a counter-derived fresh id. -/
def generateID (db : DB) : String :=
  "id-" ++ toString db.nextId

/-- `GetBranch` from `storage.go`: point lookup by id; the Go
`(*models.Branch, bool)` pair becomes an `Option`. -/
def GetBranch (db : DB) (id : String) : Option Branch :=
  db.branches.find? (fun b => b.id == id)

/-- `GetVersion` from `storage.go`: point lookup by id. -/
def GetVersion (db : DB) (id : String) : Option QueryVersion :=
  db.versions.find? (fun v => v.id == id)

/-- `CreateBranch` from `storage.go`: allocate a fresh id, insert the row
with an empty head pointer, return the branch; an injected fault models
the INSERT failing, leaving the table unchanged. -/
def CreateBranch (db : DB) (f : Faults)
    (name parentBranchID branchFromVersionID : String) :
    Except String (Branch × DB) :=
  if f.failCreateBranch then Except.error "insert failed"
  else
    let b : Branch :=
      { id := generateID db, name := name, parentBranchID := parentBranchID,
        branchFromVersionID := branchFromVersionID, currentVersionID := "",
        createdAt := db.now }
    Except.ok (b, { db with branches := db.branches ++ [b], nextId := db.nextId + 1 })

/-- The INSERT INTO query_versions statement of `SaveVersion`'s
transaction. -/
def insertVersion (db : DB) (v : QueryVersion) : DB :=
  { db with versions := db.versions ++ [v] }

/-- The UPDATE branches SET current_version_id statement of
`SaveVersion`'s transaction: every row whose id is the owning branch id
gets its head pointer set (zero rows when the id matches no branch, as in
SQL). -/
def advanceHead (db : DB) (v : QueryVersion) : DB :=
  { db with branches := db.branches.map (fun b =>
      if b.id == v.branchID then { b with currentVersionID := v.id } else b) }

/-- `SaveVersion` from `storage.go`: inside one transaction
(`Begin` / deferred `Rollback` / `Commit`), insert the version row, then
point the owning branch's head at it; an error at either statement or at
commit rolls the transaction back, so the visible state returned with the
error is the original one, and only a successful commit publishes the two
writes together. The result pairs the Go `error` (as `Option String`)
with the state visible after the call. -/
def SaveVersion (db : DB) (f : Faults) (v : QueryVersion) : Option String × DB :=
  if f.failInsertVersion then (some "insert failed", db)
  else if f.failUpdateHead then (some "update failed", db)
  else if f.failCommit then (some "commit failed", db)
  else (none, advanceHead (insertVersion db v) v)

/-! ## Tag persistence (`tags.go`) -/

/-- `AddTag` from `tags.go`: parse the raw tag, reject with a conflict
error when a row with the same (version id, key, value) already exists,
otherwise insert a fresh row. -/
def AddTag (db : DB) (versionID tag : String) : Except String (VersionTag × DB) :=
  let kv := ParseTag tag
  if db.tags.any (fun t =>
      t.versionID == versionID && t.tagKey == kv.1 && t.tagValue == kv.2) then
    Except.error "tag already exists on this version"
  else
    let t : VersionTag :=
      { id := generateID db, versionID := versionID, tagKey := kv.1,
        tagValue := kv.2, createdAt := db.now }
    Except.ok (t, { db with tags := db.tags ++ [t], nextId := db.nextId + 1 })

/-- `RemoveTag` from `tags.go`: DELETE by id; zero rows affected is the
not-found error. -/
def RemoveTag (db : DB) (tagID : String) : Except String DB :=
  if db.tags.any (fun t => t.id == tagID) then
    Except.ok { db with tags := db.tags.filter (fun t => !(t.id == tagID)) }
  else Except.error "tag not found"

/-- `GetVersionTags` from `tags.go`: all tags of one version, in creation
(= insertion) order. -/
def GetVersionTags (db : DB) (versionID : String) : List VersionTag :=
  db.tags.filter (fun t => t.versionID == versionID)

/-- `ToggleStarred` from `tags.go`: look for a `system:starred` tag of the
version; when absent add it through `AddTag` and report true, when
present remove that row and report false. -/
def ToggleStarred (db : DB) (versionID : String) : Except String (Bool × DB) :=
  match db.tags.find? (fun t =>
      t.versionID == versionID && t.tagKey == "system:starred") with
  | none =>
    match AddTag db versionID "system:starred" with
    | Except.error e => Except.error ("failed to star version: " ++ e)
    | Except.ok (_, db2) => Except.ok (true, db2)
  | some t =>
    match RemoveTag db t.id with
    | Except.error e => Except.error ("failed to unstar version: " ++ e)
    | Except.ok db2 => Except.ok (false, db2)

/-! ## Explain service (`explain_service.go`) -/

/-- A Go `map[string]string` read, modelled over an association list:
the value at the key together with the `ok` flag, as `Option`. -/
def lookupSetting (settings : List (String × String)) (key : String) : Option String :=
  (settings.find? (fun kv => kv.1 == key)).map (fun kv => kv.2)

/-- `filterExplainConfigs` from `explain_service.go`: pass the list
through unless the analyzer is disabled on the server and not forced, in
which case every QUERY TREE config is dropped. -/
def filterExplainConfigs (configs : List ExplainConfig)
    (serverSettings : List (String × String)) (forceAnalyzer : Bool) :
    List ExplainConfig :=
  if forceAnalyzer then configs
  else
    match lookupSetting serverSettings "enable_analyzer" with
    | none => configs
    | some analyzerValue =>
      if analyzerValue ≠ "0" then configs
      else configs.filter (fun c => !(c.type == ExplainQueryTree))

/-- The early-exit loop of `checkCachedVersion` over the stored results:
true as soon as one result carries a non-empty error string. -/
def hasErrorResult : List ExplainResult → Bool
  | [] => false
  | r :: rs => if r.error ≠ "" then true else hasErrorResult rs

/-- `checkCachedVersion` from `explain_service.go`: return the parent
version (reuse) only when the parent id is non-empty, the version exists,
its hash matches, it has at least one stored result and none of the
results is errored; `none` is the execute decision. -/
def checkCachedVersion (db : DB) (parentVersionID queryHash : String) :
    Option QueryVersion :=
  if parentVersionID = "" then none
  else
    match GetVersion db parentVersionID with
    | none => none
    | some parentVersion =>
      if parentVersion.queryHash ≠ queryHash then none
      else if parentVersion.explainResults.length = 0 then none
      else if hasErrorResult parentVersion.explainResults then none
      else some parentVersion

/-- `AutoBranchResult` from `explain_service.go`. -/
structure AutoBranchResult where
  targetBranchID : String := ""
  newBranch : Option Branch := none
  autoBranched : Bool := false
deriving Repr, DecidableEq

/-- The time-derived name of an auto-created branch. -/
def autoBranchName (db : DB) : String :=
  "branch-" ++ toString db.now

/-- `checkAutoBranch` from `explain_service.go`: decide whether the edit
lands on the named branch or forks a new one. The Go function returns a
`(result, error)` pair; every path returns a nil error, a failed
`CreateBranch` being swallowed (logged) with a fallback to the original
branch. -/
def checkAutoBranch (db : DB) (f : Faults) (branchID parentVersionID : String) :
    Except String (AutoBranchResult × DB) :=
  let result : AutoBranchResult :=
    { targetBranchID := branchID, newBranch := none, autoBranched := false }
  if parentVersionID = "" then Except.ok (result, db)
  else
    match GetBranch db branchID with
    | none => Except.ok (result, db)
    | some branch =>
      if branch.currentVersionID = "" ∨ branch.currentVersionID = parentVersionID then
        Except.ok (result, db)
      else
        match CreateBranch db f (autoBranchName db) branchID parentVersionID with
        | Except.error _ => Except.ok (result, db)
        | Except.ok (nb, db2) =>
          Except.ok (⟨nb.id, some nb, true⟩, db2)

/-- C10: the config list passes through unchanged whenever the forcing
flag is set, the server settings have no enable_analyzer entry, or that
entry differs from 0; with the flag unset and the entry equal to 0, the
result is the same list with every QUERY TREE config removed, the order
of the remaining configs preserved (a `List.filter`). -/
theorem filterExplainConfigs_spec (configs : List ExplainConfig)
    (serverSettings : List (String × String)) (forceAnalyzer : Bool) :
    (forceAnalyzer = true →
      filterExplainConfigs configs serverSettings forceAnalyzer = configs) ∧
    (lookupSetting serverSettings "enable_analyzer" = none →
      filterExplainConfigs configs serverSettings forceAnalyzer = configs) ∧
    (∀ v, lookupSetting serverSettings "enable_analyzer" = some v → v ≠ "0" →
      filterExplainConfigs configs serverSettings forceAnalyzer = configs) ∧
    (forceAnalyzer = false →
      lookupSetting serverSettings "enable_analyzer" = some "0" →
      filterExplainConfigs configs serverSettings forceAnalyzer
        = configs.filter (fun c => !(c.type == ExplainQueryTree))) := by
  refine ⟨fun hfa => ?_, fun hnone => ?_, fun v hv hne => ?_, fun hfa h0 => ?_⟩
  · unfold filterExplainConfigs
    rw [if_pos hfa]
  · unfold filterExplainConfigs
    by_cases hfa : forceAnalyzer = true
    · rw [if_pos hfa]
    · rw [if_neg hfa, hnone]
  · unfold filterExplainConfigs
    by_cases hfa : forceAnalyzer = true
    · rw [if_pos hfa]
    · rw [if_neg hfa, hv]
      simp [hne]
  · unfold filterExplainConfigs
    rw [if_neg (by simp [hfa]), h0]
    simp

/-- C10 witness: with the forcing flag unset and enable_analyzer=0 in the
server settings, a PLAN + QUERY TREE + PIPELINE list loses exactly its
QUERY TREE entry. -/
theorem filterExplainConfigs_spec_witness :
    (false = false ∧
      lookupSetting [("enable_analyzer", "0")] "enable_analyzer" = some "0") ∧
    filterExplainConfigs
      [{ type := ExplainPlan, enabled := true },
       { type := ExplainQueryTree, enabled := true },
       { type := ExplainPipeline, enabled := true }]
      [("enable_analyzer", "0")] false
      = [{ type := ExplainPlan, enabled := true },
         { type := ExplainQueryTree, enabled := true },
         { type := ExplainPipeline, enabled := true }].filter
          (fun c => !(c.type == ExplainQueryTree)) :=
  ⟨⟨rfl, by decide⟩,
   (filterExplainConfigs_spec
      [{ type := ExplainPlan, enabled := true },
       { type := ExplainQueryTree, enabled := true },
       { type := ExplainPipeline, enabled := true }]
      [("enable_analyzer", "0")] false).2.2.2 rfl (by decide)⟩

theorem hasErrorResult_eq_false (l : List ExplainResult) :
    hasErrorResult l = false ↔ ∀ r ∈ l, r.error = "" := by
  induction l with
  | nil => simp [hasErrorResult]
  | cons r rs ih =>
    by_cases h : r.error = ""
    · simp [hasErrorResult, h, ih]
    · simp [hasErrorResult, h]

/-- C4: the cache decision is reuse — the parent version is returned —
exactly when the parent id is non-empty, the version exists, its stored
hash equals the supplied hash, it has at least one stored result, and no
stored result carries a non-empty error string; in every other case
(including a matching hash with one errored result) the decision is
execute (`none`). -/
theorem checkCachedVersion_reuse_iff (db : DB) (parentVersionID queryHash : String)
    (v : QueryVersion) :
    checkCachedVersion db parentVersionID queryHash = some v ↔
      (parentVersionID ≠ "" ∧ GetVersion db parentVersionID = some v ∧
       v.queryHash = queryHash ∧ v.explainResults ≠ [] ∧
       ∀ r ∈ v.explainResults, r.error = "") := by
  by_cases hpid : parentVersionID = ""
  · unfold checkCachedVersion
    simp [hpid]
  · cases hg : GetVersion db parentVersionID with
    | none =>
      unfold checkCachedVersion
      rw [if_neg hpid]
      simp [hg]
    | some pv =>
      have hred : checkCachedVersion db parentVersionID queryHash =
          (if pv.queryHash ≠ queryHash then none
           else if pv.explainResults.length = 0 then none
           else if hasErrorResult pv.explainResults then none
           else some pv) := by
        unfold checkCachedVersion
        rw [if_neg hpid, hg]
      rw [hred]
      by_cases hq : pv.queryHash ≠ queryHash
      · rw [if_pos hq]
        simp only [false_iff, reduceCtorEq]
        rintro ⟨-, hgv, hqh, -⟩
        cases hgv
        exact hq hqh
      · rw [if_neg hq]
        push_neg at hq
        by_cases hlen : pv.explainResults.length = 0
        · rw [if_pos hlen]
          simp only [false_iff, reduceCtorEq]
          rintro ⟨-, hgv, -, hne, -⟩
          cases hgv
          exact hne (List.length_eq_zero.mp hlen)
        · rw [if_neg hlen]
          by_cases herr : hasErrorResult pv.explainResults = true
          · rw [if_pos herr]
            simp only [false_iff, reduceCtorEq]
            rintro ⟨-, hgv, -, -, hall⟩
            cases hgv
            rw [(hasErrorResult_eq_false v.explainResults).mpr hall] at herr
            exact Bool.false_ne_true herr
          · rw [if_neg herr]
            have herr2 : hasErrorResult pv.explainResults = false := by
              simpa using herr
            constructor
            · intro h
              cases h
              refine ⟨hpid, rfl, hq, ?_, ?_⟩
              · intro hnil
                exact hlen (by rw [hnil]; rfl)
              · exact (hasErrorResult_eq_false _).mp herr2
            · rintro ⟨-, hgv, -, -, -⟩
              cases hgv
              rfl

theorem checkAutoBranch_branch_some {db : DB} {f : Faults}
    {branchID parentVersionID : String} {b : Branch}
    (hpid : parentVersionID ≠ "") (hb : GetBranch db branchID = some b) :
    checkAutoBranch db f branchID parentVersionID =
      (if b.currentVersionID = "" ∨ b.currentVersionID = parentVersionID then
        Except.ok (⟨branchID, none, false⟩, db)
      else
        match CreateBranch db f (autoBranchName db) branchID parentVersionID with
        | Except.error _ => Except.ok (⟨branchID, none, false⟩, db)
        | Except.ok (nb, db2) => Except.ok (⟨nb.id, some nb, true⟩, db2)) := by
  unfold checkAutoBranch
  rw [if_neg hpid, hb]

/-- The branch row inserted by `CreateBranch`. -/
def newBranchOf (db : DB) (name parentBranchID branchFromVersionID : String) : Branch :=
  { id := generateID db, name := name, parentBranchID := parentBranchID,
    branchFromVersionID := branchFromVersionID, currentVersionID := "",
    createdAt := db.now }

/-- The state after `CreateBranch` inserts one branch row. -/
def withNewBranch (db : DB) (nb : Branch) : DB :=
  { db with branches := db.branches ++ [nb], nextId := db.nextId + 1 }

theorem CreateBranch_ok {db : DB} {f : Faults} (hf : f.failCreateBranch = false)
    (name parentBranchID branchFromVersionID : String) :
    CreateBranch db f name parentBranchID branchFromVersionID =
      Except.ok (newBranchOf db name parentBranchID branchFromVersionID,
        withNewBranch db (newBranchOf db name parentBranchID branchFromVersionID)) := by
  unfold CreateBranch
  rw [if_neg (by simp [hf])]
  rfl

/-- A state with one branch whose head pointer is empty. -/
def dbEmptyHead : DB :=
  { branches := [⟨"b1", "main", "", "", "", 0⟩],
    versions := [], tags := [], nextId := 0, now := 0 }

/-- C3 counterexample: the branch named b1 exists and its head is empty
(hence differs from the non-empty parent-version id p1); the claim
demands that exactly one new branch be created, but checkAutoBranch
creates none — the named branch stays the write target, AutoBranched is
false, and the state is unchanged. -/
theorem checkAutoBranch_empty_head_counterexample :
    (∃ b, GetBranch dbEmptyHead "b1" = some b ∧ b.currentVersionID = "" ∧
      b.currentVersionID ≠ "p1") ∧ ("p1" : String) ≠ "" ∧
    checkAutoBranch dbEmptyHead {} "b1" "p1"
      = Except.ok (⟨"b1", none, false⟩, dbEmptyHead) := by
  refine ⟨⟨⟨"b1", "main", "", "", "", 0⟩, rfl, rfl, by decide⟩, by decide, rfl⟩

/-- C3 (amended): with a non-empty parent-version id and an existing
named branch, and branch creation not failing: when the branch's head is
empty or equals the parent-version id, no branch is created and the named
branch stays the write target; when the head is non-empty and differs
from the parent-version id, exactly one new branch is created — its
parent branch is the named branch, its fork point is the parent-version
id, its head starts empty — and it becomes the write target. -/
theorem checkAutoBranch_policy (db : DB) (f : Faults)
    (branchID parentVersionID : String) (b : Branch)
    (hpid : parentVersionID ≠ "") (hb : GetBranch db branchID = some b)
    (hf : f.failCreateBranch = false) :
    ((b.currentVersionID = "" ∨ b.currentVersionID = parentVersionID) →
      checkAutoBranch db f branchID parentVersionID
        = Except.ok (⟨branchID, none, false⟩, db)) ∧
    (b.currentVersionID ≠ "" → b.currentVersionID ≠ parentVersionID →
      ∃ nb db2, checkAutoBranch db f branchID parentVersionID
          = Except.ok (⟨nb.id, some nb, true⟩, db2) ∧
        db2.branches = db.branches ++ [nb] ∧
        nb.parentBranchID = branchID ∧
        nb.branchFromVersionID = parentVersionID ∧
        nb.currentVersionID = "" ∧
        db2.versions = db.versions ∧ db2.tags = db.tags) := by
  constructor
  · intro hcase
    rw [checkAutoBranch_branch_some hpid hb, if_pos hcase]
  · intro h1 h2
    refine ⟨newBranchOf db (autoBranchName db) branchID parentVersionID,
      withNewBranch db (newBranchOf db (autoBranchName db) branchID parentVersionID),
      ?_, rfl, rfl, rfl, rfl, rfl, rfl⟩
    rw [checkAutoBranch_branch_some hpid hb, if_neg (not_or.mpr ⟨h1, h2⟩),
      CreateBranch_ok hf]

/-- A state with one branch whose head pointer is the version v1. -/
def dbWithHead : DB :=
  { branches := [⟨"b1", "main", "", "", "v1", 0⟩],
    versions := [], tags := [], nextId := 0, now := 0 }

/-- The single branch row of `dbWithHead`. -/
def headBranch : Branch := ⟨"b1", "main", "", "", "v1", 0⟩

/-- C3 witness: editing the head version v1 forks nothing; editing the
non-head version v0 creates exactly one branch forked from b1 at v0. -/
theorem checkAutoBranch_policy_witness :
    (("v1" : String) ≠ "" ∧ GetBranch dbWithHead "b1" = some headBranch ∧
      (headBranch.currentVersionID = "" ∨ headBranch.currentVersionID = "v1") ∧
      checkAutoBranch dbWithHead {} "b1" "v1"
        = Except.ok (⟨"b1", none, false⟩, dbWithHead)) ∧
    (("v0" : String) ≠ "" ∧ headBranch.currentVersionID ≠ "" ∧
      headBranch.currentVersionID ≠ "v0" ∧
      ∃ nb db2, checkAutoBranch dbWithHead {} "b1" "v0"
          = Except.ok (⟨nb.id, some nb, true⟩, db2) ∧
        db2.branches = dbWithHead.branches ++ [nb] ∧
        nb.parentBranchID = "b1" ∧ nb.branchFromVersionID = "v0" ∧
        nb.currentVersionID = "" ∧
        db2.versions = dbWithHead.versions ∧ db2.tags = dbWithHead.tags) :=
  ⟨⟨by decide, rfl, Or.inr rfl,
    (checkAutoBranch_policy dbWithHead {} "b1" "v1" headBranch (by decide) rfl
      rfl).1 (Or.inr rfl)⟩,
   ⟨by decide, by decide, by decide,
    (checkAutoBranch_policy dbWithHead {} "b1" "v0" headBranch (by decide) rfl
      rfl).2 (by decide) (by decide)⟩⟩

/-- Faults in which the branch-creation insert fails. -/
def faultyCreate : Faults := { failCreateBranch := true }

/-- C6: when the branch-creation insert fails during the fork attempt,
checkAutoBranch still returns without error (`Except.ok`), with the
originally named branch as the write target, AutoBranched false, and the
state unchanged — the persistence failure never propagates. -/
theorem checkAutoBranch_fork_failure_nonfatal (db : DB) (f : Faults)
    (branchID parentVersionID : String) (b : Branch)
    (hpid : parentVersionID ≠ "") (hb : GetBranch db branchID = some b)
    (h1 : b.currentVersionID ≠ "") (h2 : b.currentVersionID ≠ parentVersionID)
    (hf : f.failCreateBranch = true) :
    checkAutoBranch db f branchID parentVersionID
      = Except.ok (⟨branchID, none, false⟩, db) := by
  rw [checkAutoBranch_branch_some hpid hb, if_neg (not_or.mpr ⟨h1, h2⟩)]
  unfold CreateBranch
  rw [if_pos hf]

/-- C6 witness: in `dbWithHead`, editing non-head v0 with the branch
insert failing falls back to branch b1 with no error and no state
change. -/
theorem checkAutoBranch_fork_failure_nonfatal_witness :
    (("v0" : String) ≠ "" ∧ GetBranch dbWithHead "b1" = some headBranch ∧
      headBranch.currentVersionID ≠ "" ∧ headBranch.currentVersionID ≠ "v0" ∧
      faultyCreate.failCreateBranch = true) ∧
    checkAutoBranch dbWithHead faultyCreate "b1" "v0"
      = Except.ok (⟨"b1", none, false⟩, dbWithHead) :=
  ⟨⟨by decide, rfl, by decide, by decide, rfl⟩,
   checkAutoBranch_fork_failure_nonfatal dbWithHead faultyCreate "b1" "v0"
     headBranch (by decide) rfl (by decide) (by decide) rfl⟩

theorem advanceHead_mem_eq {db : DB} {v : QueryVersion} {b : Branch}
    (hb : b ∈ db.branches) (hid : b.id = v.branchID) :
    { b with currentVersionID := v.id } ∈ (advanceHead db v).branches := by
  unfold advanceHead
  have hmem := List.mem_map_of_mem (fun b =>
    if b.id == v.branchID then { b with currentVersionID := v.id } else b) hb
  simpa [hid] using hmem

theorem advanceHead_mem_ne {db : DB} {v : QueryVersion} {b : Branch}
    (hb : b ∈ db.branches) (hid : b.id ≠ v.branchID) :
    b ∈ (advanceHead db v).branches := by
  unfold advanceHead
  have hmem := List.mem_map_of_mem (fun b =>
    if b.id == v.branchID then { b with currentVersionID := v.id } else b) hb
  simpa [hid] using hmem

/-- C5: SaveVersion is atomic. Whenever any step fails, the visible state
is exactly the prior state — the version row is not visible and every
branch head keeps its prior value; on success the version row is appended
and every branch carrying the owning id has its head advanced to the
version's id, while every other branch is unchanged — a state with the
row inserted but the owning head not advanced (or the reverse) is never
returned. -/
theorem saveVersion_atomic (db : DB) (f : Faults) (v : QueryVersion) :
    (∀ e db2, SaveVersion db f v = (some e, db2) → db2 = db) ∧
    (∀ db2, SaveVersion db f v = (none, db2) →
      db2.versions = db.versions ++ [v] ∧
      (∀ b ∈ db.branches, b.id = v.branchID →
        { b with currentVersionID := v.id } ∈ db2.branches) ∧
      (∀ b ∈ db.branches, b.id ≠ v.branchID → b ∈ db2.branches)) := by
  unfold SaveVersion
  by_cases h1 : f.failInsertVersion = true
  · rw [if_pos h1]
    refine ⟨fun e db2 h => ?_, fun db2 h => ?_⟩
    · injection h with hA hB
      exact hB.symm
    · injection h with hA hB
      exact Option.noConfusion hA
  · rw [if_neg h1]
    by_cases h2 : f.failUpdateHead = true
    · rw [if_pos h2]
      refine ⟨fun e db2 h => ?_, fun db2 h => ?_⟩
      · injection h with hA hB
        exact hB.symm
      · injection h with hA hB
        exact Option.noConfusion hA
    · rw [if_neg h2]
      by_cases h3 : f.failCommit = true
      · rw [if_pos h3]
        refine ⟨fun e db2 h => ?_, fun db2 h => ?_⟩
        · injection h with hA hB
          exact hB.symm
        · injection h with hA hB
          exact Option.noConfusion hA
      · rw [if_neg h3]
        refine ⟨fun e db2 h => ?_, fun db2 h => ?_⟩
        · injection h with hA hB
          exact Option.noConfusion hA
        · injection h with hA hB
          subst hB
          refine ⟨rfl, fun b hb hid => ?_, fun b hb hid => ?_⟩
          · exact advanceHead_mem_eq (show b ∈ (insertVersion db v).branches from hb) hid
          · exact advanceHead_mem_ne (show b ∈ (insertVersion db v).branches from hb) hid

/-- A version row to be saved on branch b1 of `dbWithHead`. -/
def sampleVersion : QueryVersion :=
  { id := "v2", branchID := "b1", query := "SELECT 2", queryHash := "h2",
    explainResults := [], executionStats := [], timestamp := 1,
    parentVersionID := "v1" }

/-- C5 witness: a failure at the head-pointer update leaves `dbWithHead`
untouched; the fault-free run inserts the row and advances b1's head. -/
theorem saveVersion_atomic_witness :
    (SaveVersion dbWithHead ⟨false, false, true, false⟩ sampleVersion
        = (some "update failed", dbWithHead) ∧ dbWithHead = dbWithHead) ∧
    (SaveVersion dbWithHead {} sampleVersion
        = (none, advanceHead (insertVersion dbWithHead sampleVersion) sampleVersion) ∧
      ((advanceHead (insertVersion dbWithHead sampleVersion) sampleVersion).versions
          = dbWithHead.versions ++ [sampleVersion] ∧
       (∀ b ∈ dbWithHead.branches, b.id = sampleVersion.branchID →
         { b with currentVersionID := sampleVersion.id }
           ∈ (advanceHead (insertVersion dbWithHead sampleVersion) sampleVersion).branches) ∧
       (∀ b ∈ dbWithHead.branches, b.id ≠ sampleVersion.branchID →
         b ∈ (advanceHead (insertVersion dbWithHead sampleVersion) sampleVersion).branches))) :=
  ⟨⟨rfl, (saveVersion_atomic dbWithHead ⟨false, false, true, false⟩ sampleVersion).1
      "update failed" dbWithHead rfl⟩,
   ⟨rfl, (saveVersion_atomic dbWithHead {} sampleVersion).2
      (advanceHead (insertVersion dbWithHead sampleVersion) sampleVersion) rfl⟩⟩

/-- The tag row inserted by `AddTag`. -/
def newTagOf (db : DB) (versionID key value : String) : VersionTag :=
  ⟨generateID db, versionID, key, value, db.now⟩

/-- The state after `AddTag` inserts one tag row. -/
def withNewTag (db : DB) (t : VersionTag) : DB :=
  { db with tags := db.tags ++ [t], nextId := db.nextId + 1 }

theorem AddTag_absent {db : DB} {versionID tag : String}
    (h : db.tags.any (fun t => t.versionID == versionID &&
      t.tagKey == (ParseTag tag).1 && t.tagValue == (ParseTag tag).2) = false) :
    AddTag db versionID tag = Except.ok
      (newTagOf db versionID (ParseTag tag).1 (ParseTag tag).2,
       withNewTag db (newTagOf db versionID (ParseTag tag).1 (ParseTag tag).2)) := by
  unfold AddTag
  rw [if_neg (by simp [h])]
  rfl

theorem AddTag_present {db : DB} {versionID tag : String}
    (h : db.tags.any (fun t => t.versionID == versionID &&
      t.tagKey == (ParseTag tag).1 && t.tagValue == (ParseTag tag).2) = true) :
    AddTag db versionID tag = Except.error "tag already exists on this version" := by
  unfold AddTag
  rw [if_pos h]

/-- C7: for raw tag strings parsing to the same (key, value) pair, and a
version carrying no such tag yet: the first AddTag succeeds and appends
exactly one row with that version id, key and value; the second AddTag
returns the conflict error and inserts nothing, leaving exactly one
matching row. -/
theorem addTag_duplicate_conflict (db : DB) (versionID raw1 raw2 : String)
    (hparse : ParseTag raw1 = ParseTag raw2)
    (habsent : ∀ t ∈ db.tags, ¬(t.versionID = versionID ∧
      t.tagKey = (ParseTag raw1).1 ∧ t.tagValue = (ParseTag raw1).2)) :
    ∃ t db2, AddTag db versionID raw1 = Except.ok (t, db2) ∧
      db2.tags = db.tags ++ [t] ∧ t.versionID = versionID ∧
      t.tagKey = (ParseTag raw1).1 ∧ t.tagValue = (ParseTag raw1).2 ∧
      AddTag db2 versionID raw2 = Except.error "tag already exists on this version" ∧
      db2.tags.countP (fun u => u.versionID == versionID &&
        u.tagKey == (ParseTag raw1).1 && u.tagValue == (ParseTag raw1).2) = 1 := by
  have hany : db.tags.any (fun t => t.versionID == versionID &&
      t.tagKey == (ParseTag raw1).1 && t.tagValue == (ParseTag raw1).2) = false := by
    rw [List.any_eq_false]
    intro t ht
    simpa [Bool.and_eq_true, beq_iff_eq] using habsent t ht
  refine ⟨newTagOf db versionID (ParseTag raw1).1 (ParseTag raw1).2,
    withNewTag db (newTagOf db versionID (ParseTag raw1).1 (ParseTag raw1).2),
    AddTag_absent hany, rfl, rfl, rfl, rfl, ?_, ?_⟩
  · apply AddTag_present
    rw [← hparse, List.any_eq_true]
    refine ⟨newTagOf db versionID (ParseTag raw1).1 (ParseTag raw1).2, ?_, ?_⟩
    · simp [withNewTag]
    · simp [newTagOf]
  · show ((withNewTag db (newTagOf db versionID (ParseTag raw1).1
      (ParseTag raw1).2)).tags).countP _ = 1
    have h0 : db.tags.countP (fun u => u.versionID == versionID &&
        u.tagKey == (ParseTag raw1).1 && u.tagValue == (ParseTag raw1).2) = 0 := by
      rw [List.countP_eq_zero]
      intro t ht
      simpa [Bool.and_eq_true, beq_iff_eq] using habsent t ht
    show (db.tags ++ [newTagOf db versionID (ParseTag raw1).1
      (ParseTag raw1).2]).countP _ = 1
    rw [List.countP_append, h0]
    simp [List.countP_cons, newTagOf]

/-- C7 witness: on an empty store, adding env=prod to version v1 succeeds
and re-adding its differently-spaced spelling " env = prod " conflicts,
leaving one row. -/
theorem addTag_duplicate_conflict_witness :
    (ParseTag "env=prod" = ParseTag " env = prod " ∧
      ∀ t ∈ ({} : DB).tags, ¬(t.versionID = "v1" ∧
        t.tagKey = (ParseTag "env=prod").1 ∧ t.tagValue = (ParseTag "env=prod").2)) ∧
    (∃ t db2, AddTag {} "v1" "env=prod" = Except.ok (t, db2) ∧
      db2.tags = ({} : DB).tags ++ [t] ∧ t.versionID = "v1" ∧
      t.tagKey = (ParseTag "env=prod").1 ∧ t.tagValue = (ParseTag "env=prod").2 ∧
      AddTag db2 "v1" " env = prod "
        = Except.error "tag already exists on this version" ∧
      db2.tags.countP (fun u => u.versionID == "v1" &&
        u.tagKey == (ParseTag "env=prod").1 &&
        u.tagValue == (ParseTag "env=prod").2) = 1) :=
  ⟨⟨by decide, by simp⟩,
   addTag_duplicate_conflict {} "v1" "env=prod" " env = prod "
     (by decide) (by simp)⟩

/-- The state after `RemoveTag` deletes the rows with one id. -/
def withoutTag (db : DB) (tagID : String) : DB :=
  { db with tags := db.tags.filter (fun t => !(t.id == tagID)) }

theorem ToggleStarred_not_starred {db : DB} {versionID : String}
    (hfind : db.tags.find? (fun t => t.versionID == versionID &&
      t.tagKey == "system:starred") = none)
    (hany : db.tags.any (fun t => t.versionID == versionID &&
      t.tagKey == (ParseTag "system:starred").1 &&
      t.tagValue == (ParseTag "system:starred").2) = false) :
    ToggleStarred db versionID = Except.ok (true,
      withNewTag db (newTagOf db versionID (ParseTag "system:starred").1
        (ParseTag "system:starred").2)) := by
  unfold ToggleStarred
  rw [hfind, AddTag_absent hany]

theorem ToggleStarred_starred {db : DB} {versionID : String} {st : VersionTag}
    (hfind : db.tags.find? (fun t => t.versionID == versionID &&
      t.tagKey == "system:starred") = some st)
    (hrem : db.tags.any (fun t => t.id == st.id) = true) :
    ToggleStarred db versionID = Except.ok (false, withoutTag db st.id) := by
  unfold ToggleStarred
  rw [hfind]
  show (match RemoveTag db st.id with
    | Except.error e => Except.error ("failed to unstar version: " ++ e)
    | Except.ok db2 => Except.ok (false, db2))
    = Except.ok (false, withoutTag db st.id)
  unfold RemoveTag
  rw [if_pos hrem]
  rfl

theorem parseStarred : ParseTag "system:starred" = ("system:starred", "") := by
  decide

/-- C9: starting from a state where the version carries no tag with key
system:starred, the first ToggleStarred returns true and appends one
system:starred tag with empty value; the second returns false and removes
it, and afterwards the version's tag list contains no system:starred
entry. -/
theorem toggleStarred_twice (db : DB) (versionID : String)
    (h : ∀ t ∈ db.tags, t.versionID = versionID → t.tagKey ≠ "system:starred") :
    ∃ st db1 db2, ToggleStarred db versionID = Except.ok (true, db1) ∧
      db1.tags = db.tags ++ [st] ∧ st.versionID = versionID ∧
      st.tagKey = "system:starred" ∧ st.tagValue = "" ∧
      ToggleStarred db1 versionID = Except.ok (false, db2) ∧
      ∀ t ∈ GetVersionTags db2 versionID, t.tagKey ≠ "system:starred" := by
  have hpredf : ∀ t ∈ db.tags, ¬((t.versionID == versionID &&
      t.tagKey == "system:starred") = true) := by
    intro t ht
    simp only [Bool.and_eq_true, beq_iff_eq, not_and]
    exact h t ht
  have hfind : db.tags.find? (fun t => t.versionID == versionID &&
      t.tagKey == "system:starred") = none :=
    List.find?_eq_none.mpr hpredf
  have hany : db.tags.any (fun t => t.versionID == versionID &&
      t.tagKey == (ParseTag "system:starred").1 &&
      t.tagValue == (ParseTag "system:starred").2) = false := by
    rw [List.any_eq_false]
    intro t ht
    rw [parseStarred]
    simp only [Bool.and_eq_true, beq_iff_eq]
    rintro ⟨⟨hv, hk⟩, -⟩
    exact h t ht hv hk
  refine ⟨newTagOf db versionID (ParseTag "system:starred").1
    (ParseTag "system:starred").2,
    withNewTag db (newTagOf db versionID (ParseTag "system:starred").1
      (ParseTag "system:starred").2),
    withoutTag (withNewTag db (newTagOf db versionID (ParseTag "system:starred").1
      (ParseTag "system:starred").2))
      (newTagOf db versionID (ParseTag "system:starred").1
        (ParseTag "system:starred").2).id,
    ToggleStarred_not_starred hfind hany, rfl, rfl, ?_, ?_, ?_, ?_⟩
  · rw [parseStarred]
    rfl
  · rw [parseStarred]
    rfl
  · have hfind2 : (withNewTag db (newTagOf db versionID
        (ParseTag "system:starred").1 (ParseTag "system:starred").2)).tags.find?
        (fun t => t.versionID == versionID && t.tagKey == "system:starred")
        = some (newTagOf db versionID (ParseTag "system:starred").1
          (ParseTag "system:starred").2) := by
      show (db.tags ++ [newTagOf db versionID (ParseTag "system:starred").1
        (ParseTag "system:starred").2]).find? _ = _
      rw [List.find?_append, hfind]
      show Option.or none _ = _
      rw [Option.none_or]
      apply List.find?_cons_of_pos
      simp [newTagOf, parseStarred]
    have hrem2 : (withNewTag db (newTagOf db versionID
        (ParseTag "system:starred").1 (ParseTag "system:starred").2)).tags.any
        (fun t => t.id == (newTagOf db versionID (ParseTag "system:starred").1
          (ParseTag "system:starred").2).id) = true := by
      rw [List.any_eq_true]
      refine ⟨newTagOf db versionID (ParseTag "system:starred").1
        (ParseTag "system:starred").2, ?_, by simp⟩
      show _ ∈ db.tags ++ [_]
      simp
    exact ToggleStarred_starred hfind2 hrem2
  · intro t ht hkey
    have hmem : t ∈ db.tags ∧ t.versionID = versionID ∧
        ¬t.id = (newTagOf db versionID (ParseTag "system:starred").1
          (ParseTag "system:starred").2).id := by
      have ht2 := ht
      unfold GetVersionTags withoutTag withNewTag at ht2
      simpa [List.mem_filter] using ht2
    exact h t hmem.1 hmem.2.1 hkey

/-- C9 witness: on an empty store, toggling the star of version v9 twice
returns true then false and leaves no system:starred tag. -/
theorem toggleStarred_twice_witness :
    (∀ t ∈ ({} : DB).tags, t.versionID = "v9" → t.tagKey ≠ "system:starred") ∧
    (∃ st db1 db2, ToggleStarred {} "v9" = Except.ok (true, db1) ∧
      db1.tags = ({} : DB).tags ++ [st] ∧ st.versionID = "v9" ∧
      st.tagKey = "system:starred" ∧ st.tagValue = "" ∧
      ToggleStarred db1 "v9" = Except.ok (false, db2) ∧
      ∀ t ∈ GetVersionTags db2 "v9", t.tagKey ≠ "system:starred") :=
  ⟨by simp, toggleStarred_twice {} "v9" (by simp)⟩
